import Mathlib

/-!
Shallow embedding of the shinobi.vote voting core
(`packages/contracts/contracts`): `DAOState.sol` (membership accumulator and
root history), `DAOMembership.sol` (`joinDAO`), `DAOProposals.sol`
(`createProposal`, `executeProposal`), `DAOVoting.sol` (`vote`) and
`VotingPaymaster.sol` (the sponsorship validator).  Solidity `uint256`
values are modelled as `Nat` (the counters involved cannot overflow),
mappings as total functions with the zero default, and `revert`/`require`
as `Except`: a failing call returns only its error, which models the
EVM's all-or-nothing revert semantics.  The external Merkle-tree library
(`@zk-kit/lean-imt.sol`, not part of this repository) and the external
Groth16 verifier are abstracted as pure functions supplied in an
environment, exactly as the contracts consume them through calls.
-/

namespace ShinobiVote

/-- `ROOT_HISTORY_SIZE` of `DAOState.sol`. -/
def ROOT_HISTORY_SIZE : Nat := 64

/-- `MIN_TREE_DEPTH` of `DAOState.sol`. -/
def MIN_TREE_DEPTH : Nat := 1

/-- `MAX_TREE_DEPTH` of `DAOState.sol`. -/
def MAX_TREE_DEPTH : Nat := 32

/-- `MIN_VOTING_DURATION = 1 hours` of `DAOProposals.sol`, in seconds. -/
def MIN_VOTING_DURATION : Nat := 3600

/-- `_VALIDATION_FAILED` of `VotingPaymaster.sol`. -/
def VALIDATION_FAILED : Nat := 1

/-- `DAOLib.MembershipProof`: the proof tuple carried by a vote. -/
structure MembershipProof where
  merkleTreeDepth : Nat
  merkleTreeRoot : Nat
  nullifier : Nat
  message : Nat
  scope : Nat
  points : Fin 8 → Nat

/-- `DAOLib.VoteConfig`: the caller-supplied root-history index. -/
structure VoteConfig where
  merkleRootIndex : Nat

/-- `DAOLib.VoteData`: proof plus configuration. -/
structure VoteData where
  proof : MembershipProof
  config : VoteConfig

/-- `IDAO.Proposal` (the per-option tally lives outside the struct, as in
the source, in `proposalVotes`). -/
structure Proposal where
  id : Nat
  title : String
  description : String
  startTime : Nat
  endTime : Nat
  executed : Bool
  proposer : Nat
  totalVotes : Nat
  optionCount : Nat
deriving DecidableEq

/-- The `VoteCast(proposalId, optionIndex, nullifierHash)` event. -/
structure VoteCastEv where
  proposalId : Nat
  optionIndex : Nat
  nullifierHash : Nat
deriving DecidableEq

/-- The `ProposalCreated` event. -/
structure ProposalCreatedEv where
  proposalId : Nat
  title : String
  description : String
  options : List String
  startTime : Nat
  endTime : Nat
  proposer : Nat
deriving DecidableEq

/-- The named revert conditions of the DAO contracts.  Each constructor
stands for one distinct `require` string or custom error of the source:
`InvalidProposal` = "DAO: Invalid proposal", `VotingNotStarted` =
"DAO: Voting not started", `VotingEnded` = "DAO: Voting ended",
`InvalidOption` = "DAO: Invalid option", `AlreadyVoted` =
"DAO: Already voted" (the nullifier-already-used error), `InvalidScope` =
"DAO: Invalid DAO scope in proof", `UnknownRoot` =
"DAO: Unknown membership root", `InvalidTreeDepth` =
"DAO: Invalid tree depth", and so on. -/
inductive DErr where
  | InvalidProposal
  | VotingNotStarted
  | VotingEnded
  | InvalidOption
  | AlreadyVoted
  | InvalidScope
  | UnknownRoot
  | InvalidTreeDepth
  | ProofVerificationFailed
  | NotMember
  | NeedTwoOptions
  | TooManyOptions
  | DurationTooShort
  | EmptyTitle
  | EmptyDescription
  | AlreadyMember
  | InvalidIdentityCommitment
  | MemberAlreadyExists
  | MaxTreeDepthReached
  | VotingStillActive
  | AlreadyExecuted
deriving DecidableEq

/-- The named revert conditions of `VotingPaymaster.sol`. -/
inductive PmErr where
  | ExpectedSmartAccountNotSet
  | UnauthorizedSmartAccount
  | SmartAccountNotDeployed
  | InvalidCallData
  | VoteValidationFailed
  | NullifierAlreadySpent
  | InvalidSemaphoreProof
deriving DecidableEq

/-- The external Groth16 verifier (`IVerifier.verifyProof`): proof points
A, B, C, the four public signals `(root, nullifier, hash message,
hash scope)`, and the tree depth. -/
def Verifier : Type :=
  (Nat × Nat) → ((Nat × Nat) × (Nat × Nat)) → (Nat × Nat) →
    (Nat × Nat × Nat × Nat) → Nat → Bool

/-- Abstraction of the external `@zk-kit` lean incremental Merkle tree
(outside this repository): the root and depth of the tree are pure
functions of the ordered leaf list, as the spec's data model states. -/
structure TreeModel where
  root : List Nat → Nat
  depth : List Nat → Nat

/-- The immutable per-instance environment: `SCOPE`, the
`MEMBERSHIP_VERIFIER` contract, the pure `DAOLib._hash` function
(keccak256 right-shifted by 8, abstracted), and the tree model. -/
structure Env where
  scope : Nat
  verifier : Verifier
  hashv : Nat → Nat
  tree : TreeModel

/-- The mutable contract storage of the composed DAO contract:
membership flags and commitments (`DAOMembership`), the tree leaves and
the root-history ring buffer (`DAOState`), proposals and their options
(`DAOProposals`), and the nullifier set and tally (`DAOVoting`). -/
structure DAOSt where
  members : Nat → Bool
  memberCommitments : Nat → Nat
  leaves : List Nat
  membershipRoots : Nat → Nat
  currentRootIndex : Nat
  proposals : Nat → Proposal
  proposalOptions : Nat → Nat → String
  proposalCount : Nat
  nullifierHashes : Nat → Bool
  proposalVotes : Nat → Nat → Nat

/-- Storage at deployment: every mapping holds its zero value. -/
def initState : DAOSt where
  members := fun _ => false
  memberCommitments := fun _ => 0
  leaves := []
  membershipRoots := fun _ => 0
  currentRootIndex := 0
  proposals := fun _ =>
    { id := 0, title := "", description := "", startTime := 0, endTime := 0,
      executed := false, proposer := 0, totalVotes := 0, optionCount := 0 }
  proposalOptions := fun _ _ => ""
  proposalCount := 0
  nullifierHashes := fun _ => false
  proposalVotes := fun _ _ => 0

/-- Whether an `Except` result is a success. -/
def resultOk {e a : Type} : Except e a → Bool
  | .ok _ => true
  | .error _ => false

/-- `DAOVoting._validateProof` with an explicit verifier and hash
function: forwards the points, the public-signal tuple
`(root, nullifier, hash message, hash scope)` and the depth. -/
def validateProofWith (V : Verifier) (hashv : Nat → Nat)
    (proof : MembershipProof) : Bool :=
  V (proof.points 0, proof.points 1)
    ((proof.points 2, proof.points 3), (proof.points 4, proof.points 5))
    (proof.points 6, proof.points 7)
    (proof.merkleTreeRoot, proof.nullifier, hashv proof.message,
      hashv proof.scope)
    proof.merkleTreeDepth

/-- `DAOVoting._validateProof` against the instance environment. -/
def validateProof (E : Env) (proof : MembershipProof) : Bool :=
  validateProofWith E.verifier E.hashv proof

/-- `DAOState._insertMember`: rejects a zero or duplicate commitment and a
depth overflow, appends the leaf, and writes the new root into the ring
buffer at `(currentRootIndex + 1) % ROOT_HISTORY_SIZE`. -/
def insertMember (E : Env) (s : DAOSt) (identityCommitment : Nat) :
    Except DErr (DAOSt × Nat) :=
  if identityCommitment = 0 then .error .InvalidIdentityCommitment
  else if s.leaves.contains identityCommitment then .error .MemberAlreadyExists
  else
    if MAX_TREE_DEPTH < E.tree.depth (s.leaves ++ [identityCommitment]) then
      .error .MaxTreeDepthReached
    else
      .ok ({ s with
              leaves := s.leaves ++ [identityCommitment],
              membershipRoots := fun i =>
                if i = (s.currentRootIndex + 1) % ROOT_HISTORY_SIZE then
                  E.tree.root (s.leaves ++ [identityCommitment])
                else s.membershipRoots i,
              currentRootIndex := (s.currentRootIndex + 1) % ROOT_HISTORY_SIZE },
            E.tree.root (s.leaves ++ [identityCommitment]))

/-- `DAOMembership.joinDAO`: rejects an existing member and a zero
commitment, records the member, then inserts the commitment. -/
def joinDAO (E : Env) (s : DAOSt) (sender identityCommitment : Nat) :
    Except DErr DAOSt :=
  if s.members sender then .error .AlreadyMember
  else if identityCommitment = 0 then .error .InvalidIdentityCommitment
  else
    (insertMember E
      { s with
          members := fun a => if a = sender then true else s.members a,
          memberCommitments := fun a =>
            if a = sender then identityCommitment else s.memberCommitments a }
      identityCommitment).map (fun r => r.1)

/-- `DAOProposals.createProposal`: member-only; checks the option count,
duration, title and description; stamps the window, assigns the next id,
stores the options and emits `ProposalCreated`. -/
def createProposal (now : Nat) (s : DAOSt) (sender : Nat)
    (title description : String) (options : List String) (duration : Nat) :
    Except DErr (DAOSt × ProposalCreatedEv) :=
  if s.members sender then
    if 2 ≤ options.length then
      if options.length ≤ 10 then
        if MIN_VOTING_DURATION ≤ duration then
          if 0 < title.length then
            if 0 < description.length then
              .ok ({ s with
                      proposalCount := s.proposalCount + 1,
                      proposals := fun p =>
                        if p = s.proposalCount then
                          { id := s.proposalCount, title := title,
                            description := description, startTime := now,
                            endTime := now + duration, executed := false,
                            proposer := sender, totalVotes := 0,
                            optionCount := options.length }
                        else s.proposals p,
                      proposalOptions := fun p i =>
                        if p = s.proposalCount ∧ i < options.length then
                          options.getD i ""
                        else s.proposalOptions p i },
                    { proposalId := s.proposalCount, title := title,
                      description := description, options := options,
                      startTime := now, endTime := now + duration,
                      proposer := sender })
            else .error .EmptyDescription
          else .error .EmptyTitle
        else .error .DurationTooShort
      else .error .TooManyOptions
    else .error .NeedTwoOptions
  else .error .NotMember

/-- `DAOProposals.executeProposal`: valid proposal, voting over, not yet
executed. -/
def executeProposal (now : Nat) (s : DAOSt) (proposalId : Nat) :
    Except DErr DAOSt :=
  if proposalId < s.proposalCount then
    if (s.proposals proposalId).endTime < now then
      if (s.proposals proposalId).executed then .error .AlreadyExecuted
      else
        .ok { s with
                proposals := fun p =>
                  if p = proposalId then
                    { s.proposals proposalId with executed := true }
                  else s.proposals p }
    else .error .VotingStillActive
  else .error .InvalidProposal

/-- `DAOVoting.vote`: the admission sequence in source order — valid
proposal, window start, window end, option index, nullifier unused, scope,
root-history match, depth bounds, proof verification — and on success the
recording of the vote and the `VoteCast` event. -/
def vote (E : Env) (now : Nat) (s : DAOSt) (proposalId optionIndex : Nat)
    (voteData : VoteData) : Except DErr (DAOSt × VoteCastEv) :=
  if proposalId < s.proposalCount then
    if (s.proposals proposalId).startTime ≤ now then
      if now ≤ (s.proposals proposalId).endTime then
        if optionIndex < (s.proposals proposalId).optionCount then
          if s.nullifierHashes voteData.proof.nullifier then
            .error .AlreadyVoted
          else
            if voteData.proof.scope = E.scope then
              if voteData.proof.merkleTreeRoot =
                    s.membershipRoots voteData.config.merkleRootIndex ∧
                  s.membershipRoots voteData.config.merkleRootIndex ≠ 0 then
                if MIN_TREE_DEPTH ≤ voteData.proof.merkleTreeDepth ∧
                    voteData.proof.merkleTreeDepth ≤ MAX_TREE_DEPTH then
                  if validateProof E voteData.proof then
                    .ok ({ s with
                            nullifierHashes := fun n =>
                              if n = voteData.proof.nullifier then true
                              else s.nullifierHashes n,
                            proposalVotes := fun p o =>
                              if p = proposalId ∧ o = optionIndex then
                                s.proposalVotes p o + 1
                              else s.proposalVotes p o,
                            proposals := fun p =>
                              if p = proposalId then
                                { s.proposals proposalId with
                                    totalVotes :=
                                      (s.proposals proposalId).totalVotes + 1 }
                              else s.proposals p },
                          { proposalId := proposalId,
                            optionIndex := optionIndex,
                            nullifierHash := voteData.proof.nullifier })
                  else .error .ProofVerificationFailed
                else .error .InvalidTreeDepth
              else .error .UnknownRoot
            else .error .InvalidScope
        else .error .InvalidOption
      else .error .VotingEnded
    else .error .VotingNotStarted
  else .error .InvalidProposal

/-- The loop body of `DAOState._isKnownMembershipRoot`: checks `fuel`
slots of the ring buffer, stepping the index as
`(idx + ROOT_HISTORY_SIZE - 1) % ROOT_HISTORY_SIZE`. -/
def scanRoots (s : DAOSt) (root : Nat) : Nat → Nat → Bool
  | 0, _ => false
  | fuel + 1, idx =>
    if root = s.membershipRoots idx then true
    else scanRoots s root fuel ((idx + (ROOT_HISTORY_SIZE - 1)) % ROOT_HISTORY_SIZE)

/-- `DAOState._isKnownMembershipRoot`: rejects the zero root, then scans
the whole ring buffer starting at the most recent index. -/
def isKnownMembershipRoot (s : DAOSt) (root : Nat) : Bool :=
  if root = 0 then false
  else scanRoots s root ROOT_HISTORY_SIZE s.currentRootIndex

/-- A sequence of `_insertMember` calls, all of which must succeed. -/
def insertAll (E : Env) (s : DAOSt) : List Nat → Except DErr DAOSt
  | [] => .ok s
  | c :: cs =>
    match insertMember E s c with
    | .error e => .error e
    | .ok (s', _) => insertAll E s' cs

/-- `VotingPaymaster.vote`: the paymaster's embedded re-validation,
mirroring `DAOVoting.vote` — nullifier unused (read through
`DAO.hasVoted`), scope match (against `DAO.SCOPE()`), root-history match
(through `DAO.membershipRoots`), proof verification against the
paymaster's own verifier.  The `msg.sender == address(this)` guard is
modelled away: the function is reached only through the paymaster's own
self-call.  The proposal id and option index parameters are accepted and
ignored, as in the source. -/
def paymasterVote (V : Verifier) (hashv : Nat → Nat) (daoScope : Nat)
    (s : DAOSt) (_proposalId _optionIndex : Nat) (voteData : VoteData) :
    Except PmErr Unit :=
  if s.nullifierHashes voteData.proof.nullifier then
    .error .NullifierAlreadySpent
  else
    if voteData.proof.scope ≠ daoScope then .error .InvalidSemaphoreProof
    else
      if voteData.proof.merkleTreeRoot ≠
            s.membershipRoots voteData.config.merkleRootIndex ∨
          s.membershipRoots voteData.config.merkleRootIndex = 0 then
        .error .InvalidSemaphoreProof
      else
        if validateProofWith V hashv voteData.proof then .ok ()
        else .error .InvalidSemaphoreProof

/-- The decoded inner call carried by a user operation: either a
`vote(proposalId, optionIndex, voteData)` call or some other calldata.
A self-call with non-vote calldata is modelled as failing, matching the
paymaster dispatching unknown selectors to no function. -/
inductive InnerCall where
  | voteCall (proposalId optionIndex : Nat) (voteData : VoteData)
  | otherCall

/-- The decoded `SimpleAccount.execute(target, value, data)` triple. -/
structure ExecCall where
  target : Nat
  value : Nat
  data : InnerCall

/-- The user operation's calldata: an `execute` call (selector
`0xb61d27f6`) or anything else. -/
inductive OpCallData where
  | execute (call : ExecCall)
  | otherSelector

/-- The fields of a `PackedUserOperation` the paymaster reads. -/
structure UserOp where
  sender : Nat
  hasInitCode : Bool
  callData : OpCallData

/-- The paymaster's deployment configuration: the allow-listed smart
account, the DAO address, and the paymaster's entry-point deposit. -/
structure PmConfig where
  expectedSmartAccount : Nat
  daoAddr : Nat
  deposit : Nat

/-- `VotingPaymaster._validateVote`: target must be the DAO, value must
be zero, and the self-call with the inner calldata must succeed. -/
def validateVote (cfg : PmConfig) (V : Verifier) (hashv : Nat → Nat)
    (daoScope : Nat) (s : DAOSt) (c : ExecCall) : Bool :=
  if c.target ≠ cfg.daoAddr then false
  else if c.value ≠ 0 then false
  else
    match c.data with
    | .voteCall p o vd => resultOk (paymasterVote V hashv daoScope s p o vd)
    | .otherCall => false

/-- `VotingPaymaster._validatePaymasterUserOp`: account configured,
sender allow-listed, account already deployed, deposit sufficient
(otherwise the neutral `_VALIDATION_FAILED` outcome), calldata an
`execute` call, and the vote validation itself. -/
def validatePaymasterUserOp (cfg : PmConfig) (V : Verifier)
    (hashv : Nat → Nat) (daoScope : Nat) (s : DAOSt) (userOp : UserOp)
    (maxCost : Nat) : Except PmErr Nat :=
  if cfg.expectedSmartAccount = 0 then .error .ExpectedSmartAccountNotSet
  else if userOp.sender ≠ cfg.expectedSmartAccount then
    .error .UnauthorizedSmartAccount
  else if userOp.hasInitCode then .error .SmartAccountNotDeployed
  else if cfg.deposit < maxCost then .ok VALIDATION_FAILED
  else
    match userOp.callData with
    | .otherSelector => .error .InvalidCallData
    | .execute c =>
      if validateVote cfg V hashv daoScope s c then .ok 0
      else .error .VoteValidationFailed

/-- The states the composed DAO contract can reach from deployment
through its external entry points. -/
inductive Reachable (E : Env) : DAOSt → Prop where
  | init : Reachable E initState
  | join (s s' : DAOSt) (sender c : Nat) : Reachable E s →
      joinDAO E s sender c = .ok s' → Reachable E s'
  | create (s s' : DAOSt) (now sender : Nat) (title description : String)
      (options : List String) (duration : Nat) (ev : ProposalCreatedEv) :
      Reachable E s →
      createProposal now s sender title description options duration =
        .ok (s', ev) → Reachable E s'
  | voteStep (s s' : DAOSt) (now p o : Nat) (vd : VoteData)
      (ev : VoteCastEv) : Reachable E s →
      vote E now s p o vd = .ok (s', ev) → Reachable E s'
  | execStep (s s' : DAOSt) (now p : Nat) : Reachable E s →
      executeProposal now s p = .ok s' → Reachable E s'

/-! Concrete instantiations used by the closed counterexample and witness
theorems: a one-member DAO with one two-option proposal, under an
environment whose abstract tree root is one plus the leaf count and whose
verifier accepts everything. -/

/-- A concrete tree model: the root is one plus the leaf count. -/
def cexTree : TreeModel := { root := fun l => l.length + 1, depth := fun _ => 1 }

/-- A verifier that accepts every proof. -/
def cexVerifier : Verifier := fun _ _ _ _ _ => true

/-- A concrete environment with scope 7. -/
def cexEnv : Env :=
  { scope := 7, verifier := cexVerifier, hashv := fun v => v, tree := cexTree }

/-- The state after address 1 joins with commitment 5. -/
def cexS1 : DAOSt := (joinDAO cexEnv initState 1 5).toOption.getD initState

/-- The state after member 1 then creates a two-option proposal at time 0
with a one-hour window. -/
def cexS2 : DAOSt :=
  ((createProposal 0 cexS1 1 "t" "d" ["a", "b"] 3600).toOption.map
    Prod.fst).getD cexS1

/-- The event of that proposal creation. -/
def cexEvCreate : ProposalCreatedEv :=
  { proposalId := 0, title := "t", description := "d", options := ["a", "b"],
    startTime := 0, endTime := 3600, proposer := 1 }

/-- A proof tuple that passes every admission check in `cexS2`: depth 1,
the root published by the join (2), nullifier 9, scope 7. -/
def cexProof : MembershipProof :=
  { merkleTreeDepth := 1, merkleTreeRoot := 2, nullifier := 9, message := 0,
    scope := 7, points := fun _ => 0 }

/-- The vote data citing history index 1 (where the join wrote root 2). -/
def cexVd : VoteData := { proof := cexProof, config := { merkleRootIndex := 1 } }

/-- The state and event produced by the first successful vote in `cexS2`. -/
def cexPair : DAOSt × VoteCastEv :=
  (vote cexEnv 0 cexS2 0 0 cexVd).toOption.getD
    (cexS2, { proposalId := 0, optionIndex := 0, nullifierHash := 0 })

/-- The state after that first successful vote. -/
def cexS3 : DAOSt := cexPair.1

/-- A proof tuple identical to `cexProof` but declaring tree depth 0 and a
fresh nullifier. -/
def cexProofD0 : MembershipProof :=
  { cexProof with merkleTreeDepth := 0, nullifier := 11 }

/-- Vote data carrying the depth-0 proof at history index 1. -/
def cexVdD0 : VoteData := { proof := cexProofD0, config := { merkleRootIndex := 1 } }

/-- Vote data citing the out-of-buffer history index 64. -/
def cexVdIdx64 : VoteData := { proof := cexProof, config := { merkleRootIndex := 64 } }

/-- Vote data citing history index 0. -/
def cexVdIdx0 : VoteData := { proof := cexProof, config := { merkleRootIndex := 0 } }

/-- A paymaster configuration: smart account 3, DAO address 4, a deposit
of 100. -/
def cexPmConfig : PmConfig :=
  { expectedSmartAccount := 3, daoAddr := 4, deposit := 100 }

/-- A user operation from the allow-listed account wrapping a vote call. -/
def cexUserOp (p o : Nat) (vd : VoteData) : UserOp :=
  { sender := 3, hasInitCode := false,
    callData := .execute { target := 4, value := 0, data := .voteCall p o vd } }

/-- An environment for the root-history scenario whose tree root is the
leaf count, so the k-th insertion publishes root k. -/
def c4Env : Env :=
  { scope := 7, verifier := cexVerifier, hashv := fun v => v,
    tree := { root := fun l => l.length, depth := fun _ => 1 } }

/-- The 65 commitments 1..65. -/
def c4List : List Nat := List.range' 1 65

/-- The state after the first 64 insertions of `c4List`. -/
def c4S64 : DAOSt :=
  (insertAll c4Env initState (c4List.take 64)).toOption.getD initState

/-- The state after all 65 insertions of `c4List`. -/
def c4S65 : DAOSt :=
  (insertAll c4Env initState (c4List.take 65)).toOption.getD initState

/-- The content of ring-buffer slot `j` after `k ≤ 65` successful
insertions with leaf list `L` (insertion `i` writes the root of the first
`i` leaves at slot `i % 64`): slot 0 is written by the 64th insertion,
slot 1 by the 1st and again by the 65th, slot `j ≥ 2` by the `j`-th. -/
def histVal (E : Env) (L : List Nat) (k j : Nat) : Nat :=
  if j = 0 then (if 64 ≤ k then E.tree.root (L.take 64) else 0)
  else if j = 1 then
    (if k = 65 then E.tree.root (L.take 65)
      else if 1 ≤ k then E.tree.root (L.take 1) else 0)
  else if j ≤ k then E.tree.root (L.take j) else 0

/-! Helper lemmas. -/

/-- A `vote` call succeeds exactly when all nine admission conditions of
the source hold. -/
lemma vote_isOk_iff (E : Env) (now : Nat) (s : DAOSt) (p o : Nat)
    (vd : VoteData) :
    resultOk (vote E now s p o vd) = true ↔
      (p < s.proposalCount ∧ (s.proposals p).startTime ≤ now ∧
        now ≤ (s.proposals p).endTime ∧ o < (s.proposals p).optionCount ∧
        s.nullifierHashes vd.proof.nullifier = false ∧
        vd.proof.scope = E.scope ∧
        vd.proof.merkleTreeRoot = s.membershipRoots vd.config.merkleRootIndex ∧
        s.membershipRoots vd.config.merkleRootIndex ≠ 0 ∧
        MIN_TREE_DEPTH ≤ vd.proof.merkleTreeDepth ∧
        vd.proof.merkleTreeDepth ≤ MAX_TREE_DEPTH ∧
        validateProof E vd.proof = true) := by
  rw [vote]
  by_cases h1 : p < s.proposalCount
  case neg =>
    rw [if_neg h1]
    exact iff_of_false (by simp [resultOk]) (fun hc => h1 hc.1)
  rw [if_pos h1]
  by_cases h2 : (s.proposals p).startTime ≤ now
  case neg =>
    rw [if_neg h2]
    exact iff_of_false (by simp [resultOk]) (fun hc => h2 hc.2.1)
  rw [if_pos h2]
  by_cases h3 : now ≤ (s.proposals p).endTime
  case neg =>
    rw [if_neg h3]
    exact iff_of_false (by simp [resultOk]) (fun hc => h3 hc.2.2.1)
  rw [if_pos h3]
  by_cases h4 : o < (s.proposals p).optionCount
  case neg =>
    rw [if_neg h4]
    exact iff_of_false (by simp [resultOk]) (fun hc => h4 hc.2.2.2.1)
  rw [if_pos h4]
  by_cases h5 : s.nullifierHashes vd.proof.nullifier = true
  case pos =>
    rw [if_pos h5]
    exact iff_of_false (by simp [resultOk])
      (fun hc => by rw [hc.2.2.2.2.1] at h5; exact Bool.false_ne_true h5)
  rw [if_neg h5]
  by_cases h6 : vd.proof.scope = E.scope
  case neg =>
    rw [if_neg h6]
    exact iff_of_false (by simp [resultOk]) (fun hc => h6 hc.2.2.2.2.2.1)
  rw [if_pos h6]
  by_cases h7 : vd.proof.merkleTreeRoot =
      s.membershipRoots vd.config.merkleRootIndex ∧
      s.membershipRoots vd.config.merkleRootIndex ≠ 0
  case neg =>
    rw [if_neg h7]
    exact iff_of_false (by simp [resultOk])
      (fun hc => h7 ⟨hc.2.2.2.2.2.2.1, hc.2.2.2.2.2.2.2.1⟩)
  rw [if_pos h7]
  by_cases h8 : MIN_TREE_DEPTH ≤ vd.proof.merkleTreeDepth ∧
      vd.proof.merkleTreeDepth ≤ MAX_TREE_DEPTH
  case neg =>
    rw [if_neg h8]
    exact iff_of_false (by simp [resultOk])
      (fun hc => h8 ⟨hc.2.2.2.2.2.2.2.2.1, hc.2.2.2.2.2.2.2.2.2.1⟩)
  rw [if_pos h8]
  by_cases h9 : validateProof E vd.proof = true
  case neg =>
    rw [if_neg h9]
    exact iff_of_false (by simp [resultOk])
      (fun hc => h9 hc.2.2.2.2.2.2.2.2.2.2)
  rw [if_pos h9]
  exact iff_of_true rfl
    ⟨h1, h2, h3, h4, by simpa using h5, h6, h7.1, h7.2, h8.1, h8.2, h9⟩

/-- Full characterization of a successful `vote`: the event it emits and
the exact state it writes. -/
lemma vote_ok_spec (E : Env) (now : Nat) (s : DAOSt) (p o : Nat)
    (vd : VoteData) (r : DAOSt × VoteCastEv)
    (h : vote E now s p o vd = .ok r) :
    r.2 = ⟨p, o, vd.proof.nullifier⟩ ∧
    r.1.nullifierHashes =
      (fun n => if n = vd.proof.nullifier then true else s.nullifierHashes n) ∧
    r.1.proposalVotes =
      (fun p' o' => if p' = p ∧ o' = o then s.proposalVotes p' o' + 1
        else s.proposalVotes p' o') ∧
    r.1.proposals =
      (fun q => if q = p then
          { s.proposals p with totalVotes := (s.proposals p).totalVotes + 1 }
        else s.proposals q) ∧
    r.1.members = s.members ∧ r.1.memberCommitments = s.memberCommitments ∧
    r.1.leaves = s.leaves ∧ r.1.membershipRoots = s.membershipRoots ∧
    r.1.currentRootIndex = s.currentRootIndex ∧
    r.1.proposalCount = s.proposalCount ∧
    r.1.proposalOptions = s.proposalOptions := by
  rw [vote] at h
  by_cases h1 : p < s.proposalCount
  case neg => rw [if_neg h1] at h; exact Except.noConfusion h
  rw [if_pos h1] at h
  by_cases h2 : (s.proposals p).startTime ≤ now
  case neg => rw [if_neg h2] at h; exact Except.noConfusion h
  rw [if_pos h2] at h
  by_cases h3 : now ≤ (s.proposals p).endTime
  case neg => rw [if_neg h3] at h; exact Except.noConfusion h
  rw [if_pos h3] at h
  by_cases h4 : o < (s.proposals p).optionCount
  case neg => rw [if_neg h4] at h; exact Except.noConfusion h
  rw [if_pos h4] at h
  by_cases h5 : s.nullifierHashes vd.proof.nullifier = true
  case pos => rw [if_pos h5] at h; exact Except.noConfusion h
  rw [if_neg h5] at h
  by_cases h6 : vd.proof.scope = E.scope
  case neg => rw [if_neg h6] at h; exact Except.noConfusion h
  rw [if_pos h6] at h
  by_cases h7 : vd.proof.merkleTreeRoot =
      s.membershipRoots vd.config.merkleRootIndex ∧
      s.membershipRoots vd.config.merkleRootIndex ≠ 0
  case neg => rw [if_neg h7] at h; exact Except.noConfusion h
  rw [if_pos h7] at h
  by_cases h8 : MIN_TREE_DEPTH ≤ vd.proof.merkleTreeDepth ∧
      vd.proof.merkleTreeDepth ≤ MAX_TREE_DEPTH
  case neg => rw [if_neg h8] at h; exact Except.noConfusion h
  rw [if_pos h8] at h
  by_cases h9 : validateProof E vd.proof = true
  case neg => rw [if_neg h9] at h; exact Except.noConfusion h
  rw [if_pos h9] at h
  injection h with h
  subst h
  exact ⟨rfl, rfl, rfl, rfl, rfl, rfl, rfl, rfl, rfl, rfl, rfl⟩

/-- When the four earlier admission checks pass and the nullifier is
already marked used, `vote` fails with exactly the
nullifier-already-used error. -/
lemma vote_nullifier_used_error (E : Env) (now : Nat) (s : DAOSt)
    (p o : Nat) (vd : VoteData) (h1 : p < s.proposalCount)
    (h2 : (s.proposals p).startTime ≤ now)
    (h3 : now ≤ (s.proposals p).endTime)
    (h4 : o < (s.proposals p).optionCount)
    (h5 : s.nullifierHashes vd.proof.nullifier = true) :
    vote E now s p o vd = .error .AlreadyVoted := by
  rw [vote, if_pos h1, if_pos h2, if_pos h3, if_pos h4, if_pos h5]

/-- When the first six admission checks pass and the cited history slot
does not hold the proof's (non-zero) root, `vote` fails with exactly the
unknown-root error. -/
lemma vote_unknown_root_error (E : Env) (now : Nat) (s : DAOSt)
    (p o : Nat) (vd : VoteData) (h1 : p < s.proposalCount)
    (h2 : (s.proposals p).startTime ≤ now)
    (h3 : now ≤ (s.proposals p).endTime)
    (h4 : o < (s.proposals p).optionCount)
    (h5 : s.nullifierHashes vd.proof.nullifier = false)
    (h6 : vd.proof.scope = E.scope)
    (h7 : ¬(vd.proof.merkleTreeRoot =
        s.membershipRoots vd.config.merkleRootIndex ∧
        s.membershipRoots vd.config.merkleRootIndex ≠ 0)) :
    vote E now s p o vd = .error .UnknownRoot := by
  rw [vote, if_pos h1, if_pos h2, if_pos h3, if_pos h4,
    if_neg (by simp [h5]), if_pos h6, if_neg h7]

/-- When the first seven admission checks pass and the declared depth is
out of bounds, `vote` fails with exactly the invalid-tree-depth error. -/
lemma vote_invalid_depth_error (E : Env) (now : Nat) (s : DAOSt)
    (p o : Nat) (vd : VoteData) (h1 : p < s.proposalCount)
    (h2 : (s.proposals p).startTime ≤ now)
    (h3 : now ≤ (s.proposals p).endTime)
    (h4 : o < (s.proposals p).optionCount)
    (h5 : s.nullifierHashes vd.proof.nullifier = false)
    (h6 : vd.proof.scope = E.scope)
    (h7 : vd.proof.merkleTreeRoot =
        s.membershipRoots vd.config.merkleRootIndex ∧
        s.membershipRoots vd.config.merkleRootIndex ≠ 0)
    (h8 : ¬(MIN_TREE_DEPTH ≤ vd.proof.merkleTreeDepth ∧
        vd.proof.merkleTreeDepth ≤ MAX_TREE_DEPTH)) :
    vote E now s p o vd = .error .InvalidTreeDepth := by
  rw [vote, if_pos h1, if_pos h2, if_pos h3, if_pos h4,
    if_neg (by simp [h5]), if_pos h6, if_pos h7, if_neg h8]

/-- A `vote` whose declared depth is out of bounds evaluates identically
under any two environments agreeing on the scope: the verifier, the hash
function and the tree model are never consulted. -/
lemma vote_env_agree (E1 E2 : Env) (hs : E1.scope = E2.scope) (now : Nat)
    (s : DAOSt) (p o : Nat) (vd : VoteData)
    (hd : ¬(MIN_TREE_DEPTH ≤ vd.proof.merkleTreeDepth ∧
        vd.proof.merkleTreeDepth ≤ MAX_TREE_DEPTH)) :
    vote E1 now s p o vd = vote E2 now s p o vd := by
  rw [vote, vote, ← hs]
  by_cases h1 : p < s.proposalCount
  case neg => rw [if_neg h1, if_neg h1]
  rw [if_pos h1, if_pos h1]
  by_cases h2 : (s.proposals p).startTime ≤ now
  case neg => rw [if_neg h2, if_neg h2]
  rw [if_pos h2, if_pos h2]
  by_cases h3 : now ≤ (s.proposals p).endTime
  case neg => rw [if_neg h3, if_neg h3]
  rw [if_pos h3, if_pos h3]
  by_cases h4 : o < (s.proposals p).optionCount
  case neg => rw [if_neg h4, if_neg h4]
  rw [if_pos h4, if_pos h4]
  by_cases h5 : s.nullifierHashes vd.proof.nullifier = true
  case pos => rw [if_pos h5, if_pos h5]
  rw [if_neg h5, if_neg h5]
  by_cases h6 : vd.proof.scope = E1.scope
  case neg => rw [if_neg h6, if_neg h6]
  rw [if_pos h6, if_pos h6]
  by_cases h7 : vd.proof.merkleTreeRoot =
      s.membershipRoots vd.config.merkleRootIndex ∧
      s.membershipRoots vd.config.merkleRootIndex ≠ 0
  case neg => rw [if_neg h7, if_neg h7]
  rw [if_pos h7, if_pos h7, if_neg hd, if_neg hd]

/-- Admission steps 3–7 do not read the proposal id or the option index:
for two targets that each pass the proposal-window and option checks, the
two `vote` calls with the same vote data both succeed or both fail with
the same error. -/
lemma vote_target_independent (E : Env) (now : Nat) (s : DAOSt)
    (vd : VoteData) (p1 o1 p2 o2 : Nat)
    (ha1 : p1 < s.proposalCount) (ha2 : (s.proposals p1).startTime ≤ now)
    (ha3 : now ≤ (s.proposals p1).endTime)
    (ha4 : o1 < (s.proposals p1).optionCount)
    (hb1 : p2 < s.proposalCount) (hb2 : (s.proposals p2).startTime ≤ now)
    (hb3 : now ≤ (s.proposals p2).endTime)
    (hb4 : o2 < (s.proposals p2).optionCount) :
    resultOk (vote E now s p1 o1 vd) = resultOk (vote E now s p2 o2 vd) ∧
    ∀ e, vote E now s p1 o1 vd = .error e ↔ vote E now s p2 o2 vd = .error e := by
  rw [vote, vote, if_pos ha1, if_pos ha2, if_pos ha3, if_pos ha4,
    if_pos hb1, if_pos hb2, if_pos hb3, if_pos hb4]
  by_cases h5 : s.nullifierHashes vd.proof.nullifier = true
  case pos => rw [if_pos h5, if_pos h5]; exact ⟨rfl, fun e => Iff.rfl⟩
  rw [if_neg h5, if_neg h5]
  by_cases h6 : vd.proof.scope = E.scope
  case neg => rw [if_neg h6, if_neg h6]; exact ⟨rfl, fun e => Iff.rfl⟩
  rw [if_pos h6, if_pos h6]
  by_cases h7 : vd.proof.merkleTreeRoot =
      s.membershipRoots vd.config.merkleRootIndex ∧
      s.membershipRoots vd.config.merkleRootIndex ≠ 0
  case neg => rw [if_neg h7, if_neg h7]; exact ⟨rfl, fun e => Iff.rfl⟩
  rw [if_pos h7, if_pos h7]
  by_cases h8 : MIN_TREE_DEPTH ≤ vd.proof.merkleTreeDepth ∧
      vd.proof.merkleTreeDepth ≤ MAX_TREE_DEPTH
  case neg => rw [if_neg h8, if_neg h8]; exact ⟨rfl, fun e => Iff.rfl⟩
  rw [if_pos h8, if_pos h8]
  by_cases h9 : validateProof E vd.proof = true
  case neg => rw [if_neg h9, if_neg h9]; exact ⟨rfl, fun e => Iff.rfl⟩
  rw [if_pos h9, if_pos h9]
  refine ⟨rfl, fun e => ?_⟩
  constructor
  · intro h; exact Except.noConfusion h
  · intro h; exact Except.noConfusion h

/-- A successful `Except PmErr Unit` is exactly `.ok ()`. -/
lemma resultOk_unit (r : Except PmErr Unit) (h : resultOk r = true) :
    r = .ok () := by
  cases r with
  | ok u => cases u; rfl
  | error e => exact absurd h (by simp [resultOk])

/-- The paymaster's embedded `vote` check approves exactly when its four
conditions — nullifier unused, scope match, non-zero root match, proof
verification — all hold.  There is no depth-bounds check. -/
lemma paymasterVote_ok_iff (V : Verifier) (hashv : Nat → Nat)
    (daoScope : Nat) (s : DAOSt) (p o : Nat) (vd : VoteData) :
    paymasterVote V hashv daoScope s p o vd = .ok () ↔
      (s.nullifierHashes vd.proof.nullifier = false ∧
        vd.proof.scope = daoScope ∧
        vd.proof.merkleTreeRoot = s.membershipRoots vd.config.merkleRootIndex ∧
        s.membershipRoots vd.config.merkleRootIndex ≠ 0 ∧
        validateProofWith V hashv vd.proof = true) := by
  rw [paymasterVote]
  by_cases h1 : s.nullifierHashes vd.proof.nullifier = true
  case pos =>
    rw [if_pos h1]
    exact iff_of_false (fun hh => Except.noConfusion hh)
      (fun hc => by rw [hc.1] at h1; exact Bool.false_ne_true h1)
  rw [if_neg h1]
  by_cases h2 : vd.proof.scope = daoScope
  case neg =>
    rw [if_pos h2]
    exact iff_of_false (fun hh => Except.noConfusion hh)
      (fun hc => h2 hc.2.1)
  rw [if_neg (not_not_intro h2)]
  by_cases h3 : vd.proof.merkleTreeRoot =
      s.membershipRoots vd.config.merkleRootIndex ∧
      s.membershipRoots vd.config.merkleRootIndex ≠ 0
  case neg =>
    rw [if_pos (by tauto)]
    exact iff_of_false (fun hh => Except.noConfusion hh)
      (fun hc => h3 ⟨hc.2.2.1, hc.2.2.2.1⟩)
  rw [if_neg (by push_neg; exact h3)]
  by_cases h4 : validateProofWith V hashv vd.proof = true
  case neg =>
    rw [if_neg h4]
    exact iff_of_false (fun hh => Except.noConfusion hh)
      (fun hc => h4 hc.2.2.2.2)
  rw [if_pos h4]
  exact iff_of_true rfl ⟨by simpa using h1, h2, h3.1, h3.2, h4⟩

/-- `_validateVote` returns true exactly when the target is the DAO, no
value is transferred, and the inner calldata is a vote call that passes
the paymaster's embedded check. -/
lemma validateVote_true_iff (cfg : PmConfig) (V : Verifier)
    (hashv : Nat → Nat) (daoScope : Nat) (s : DAOSt) (c : ExecCall) :
    validateVote cfg V hashv daoScope s c = true ↔
      (c.target = cfg.daoAddr ∧ c.value = 0 ∧
        ∃ p o vd, c.data = .voteCall p o vd ∧
          paymasterVote V hashv daoScope s p o vd = .ok ()) := by
  obtain ⟨tg, v, d⟩ := c
  rw [validateVote]
  by_cases h1 : tg = cfg.daoAddr
  case neg =>
    rw [if_pos (by simpa using h1)]
    exact iff_of_false Bool.false_ne_true (fun hc => h1 hc.1)
  rw [if_neg (by simpa using not_not_intro h1)]
  by_cases h2 : v = 0
  case neg =>
    rw [if_pos (by simpa using h2)]
    exact iff_of_false Bool.false_ne_true (fun hc => h2 hc.2.1)
  rw [if_neg (by simpa using not_not_intro h2)]
  cases d with
  | voteCall p o vd =>
    constructor
    · intro h
      exact ⟨h1, h2, p, o, vd, rfl, resultOk_unit _ h⟩
    · rintro ⟨-, -, p', o', vd', hd, hok⟩
      injection hd with e1 e2 e3
      subst e1; subst e2; subst e3
      simp [resultOk, hok]
  | otherCall =>
    constructor
    · intro h; exact absurd h Bool.false_ne_true
    · rintro ⟨-, -, p', o', vd', hd, -⟩; exact InnerCall.noConfusion hd

/-- An approval (`validationData = 0`) by `_validatePaymasterUserOp`
implies that the inner vote call passed the paymaster's embedded check
(and was addressed to the DAO with zero value). -/
lemma validatePaymasterUserOp_ok0 (cfg : PmConfig) (V : Verifier)
    (hashv : Nat → Nat) (daoScope : Nat) (s : DAOSt) (userOp : UserOp)
    (maxCost : Nat) (c : ExecCall) (p o : Nat) (vd : VoteData)
    (h : validatePaymasterUserOp cfg V hashv daoScope s userOp maxCost = .ok 0)
    (hcd : userOp.callData = .execute c) (hdata : c.data = .voteCall p o vd) :
    c.target = cfg.daoAddr ∧ c.value = 0 ∧
      paymasterVote V hashv daoScope s p o vd = .ok () := by
  rw [validatePaymasterUserOp] at h
  by_cases e1 : cfg.expectedSmartAccount = 0
  case pos => rw [if_pos e1] at h; exact Except.noConfusion h
  rw [if_neg e1] at h
  by_cases e2 : userOp.sender = cfg.expectedSmartAccount
  case neg => rw [if_pos e2] at h; exact Except.noConfusion h
  rw [if_neg (not_not_intro e2)] at h
  by_cases e3 : userOp.hasInitCode = true
  case pos => rw [if_pos e3] at h; exact Except.noConfusion h
  rw [if_neg e3] at h
  by_cases e4 : cfg.deposit < maxCost
  case pos =>
    rw [if_pos e4] at h
    injection h with h
    exact absurd h (by decide)
  rw [if_neg e4] at h
  rw [hcd] at h
  change (if validateVote cfg V hashv daoScope s c = true then
      (Except.ok 0 : Except PmErr Nat)
    else Except.error PmErr.VoteValidationFailed) = Except.ok 0 at h
  by_cases e5 : validateVote cfg V hashv daoScope s c = true
  case neg =>
    rw [if_neg e5] at h
    exact Except.noConfusion h
  obtain ⟨ht, hv, p', o', vd', hd, hok⟩ :=
    (validateVote_true_iff cfg V hashv daoScope s c).mp e5
  rw [hdata] at hd
  injection hd with d1 d2 d3
  subst d1; subst d2; subst d3
  exact ⟨ht, hv, hok⟩

/-- `createProposal` succeeds exactly when all six preconditions hold. -/
lemma createProposal_isOk_iff (now : Nat) (s : DAOSt) (sender : Nat)
    (title description : String) (options : List String) (duration : Nat) :
    resultOk (createProposal now s sender title description options duration) =
        true ↔
      (s.members sender = true ∧ 2 ≤ options.length ∧ options.length ≤ 10 ∧
        MIN_VOTING_DURATION ≤ duration ∧ 0 < title.length ∧
        0 < description.length) := by
  rw [createProposal]
  by_cases m1 : s.members sender = true
  case neg =>
    rw [if_neg m1]
    exact iff_of_false (by simp [resultOk]) (fun hc => m1 hc.1)
  rw [if_pos m1]
  by_cases m2 : 2 ≤ options.length
  case neg =>
    rw [if_neg m2]
    exact iff_of_false (by simp [resultOk]) (fun hc => m2 hc.2.1)
  rw [if_pos m2]
  by_cases m3 : options.length ≤ 10
  case neg =>
    rw [if_neg m3]
    exact iff_of_false (by simp [resultOk]) (fun hc => m3 hc.2.2.1)
  rw [if_pos m3]
  by_cases m4 : MIN_VOTING_DURATION ≤ duration
  case neg =>
    rw [if_neg m4]
    exact iff_of_false (by simp [resultOk]) (fun hc => m4 hc.2.2.2.1)
  rw [if_pos m4]
  by_cases m5 : 0 < title.length
  case neg =>
    rw [if_neg m5]
    exact iff_of_false (by simp [resultOk]) (fun hc => m5 hc.2.2.2.2.1)
  rw [if_pos m5]
  by_cases m6 : 0 < description.length
  case neg =>
    rw [if_neg m6]
    exact iff_of_false (by simp [resultOk]) (fun hc => m6 hc.2.2.2.2.2)
  rw [if_pos m6]
  exact iff_of_true rfl ⟨m1, m2, m3, m4, m5, m6⟩

/-- Full characterization of a successful `createProposal`: the event,
the stamped proposal record, the stored options, and the untouched rest
of the state. -/
lemma createProposal_ok_spec (now : Nat) (s : DAOSt) (sender : Nat)
    (title description : String) (options : List String) (duration : Nat)
    (r : DAOSt × ProposalCreatedEv)
    (h : createProposal now s sender title description options duration =
      .ok r) :
    r.2 = ⟨s.proposalCount, title, description, options, now,
      now + duration, sender⟩ ∧
    r.1.proposalCount = s.proposalCount + 1 ∧
    r.1.proposals = (fun p => if p = s.proposalCount then
        { id := s.proposalCount, title := title, description := description,
          startTime := now, endTime := now + duration, executed := false,
          proposer := sender, totalVotes := 0,
          optionCount := options.length }
      else s.proposals p) ∧
    r.1.proposalOptions = (fun p i =>
      if p = s.proposalCount ∧ i < options.length then options.getD i ""
      else s.proposalOptions p i) ∧
    r.1.members = s.members ∧ r.1.memberCommitments = s.memberCommitments ∧
    r.1.leaves = s.leaves ∧ r.1.membershipRoots = s.membershipRoots ∧
    r.1.currentRootIndex = s.currentRootIndex ∧
    r.1.nullifierHashes = s.nullifierHashes ∧
    r.1.proposalVotes = s.proposalVotes := by
  rw [createProposal] at h
  by_cases m1 : s.members sender = true
  case neg => rw [if_neg m1] at h; exact Except.noConfusion h
  rw [if_pos m1] at h
  by_cases m2 : 2 ≤ options.length
  case neg => rw [if_neg m2] at h; exact Except.noConfusion h
  rw [if_pos m2] at h
  by_cases m3 : options.length ≤ 10
  case neg => rw [if_neg m3] at h; exact Except.noConfusion h
  rw [if_pos m3] at h
  by_cases m4 : MIN_VOTING_DURATION ≤ duration
  case neg => rw [if_neg m4] at h; exact Except.noConfusion h
  rw [if_pos m4] at h
  by_cases m5 : 0 < title.length
  case neg => rw [if_neg m5] at h; exact Except.noConfusion h
  rw [if_pos m5] at h
  by_cases m6 : 0 < description.length
  case neg => rw [if_neg m6] at h; exact Except.noConfusion h
  rw [if_pos m6] at h
  injection h with h
  subst h
  exact ⟨rfl, rfl, rfl, rfl, rfl, rfl, rfl, rfl, rfl, rfl, rfl⟩

/-- Each violated `createProposal` precondition aborts with its own named
error, in the source's checking order. -/
lemma createProposal_error_cases (now : Nat) (s : DAOSt) (sender : Nat)
    (title description : String) (options : List String) (duration : Nat) :
    (s.members sender = false →
      createProposal now s sender title description options duration =
        .error .NotMember) ∧
    (s.members sender = true → options.length < 2 →
      createProposal now s sender title description options duration =
        .error .NeedTwoOptions) ∧
    (s.members sender = true → 2 ≤ options.length → 10 < options.length →
      createProposal now s sender title description options duration =
        .error .TooManyOptions) ∧
    (s.members sender = true → 2 ≤ options.length → options.length ≤ 10 →
      duration < MIN_VOTING_DURATION →
      createProposal now s sender title description options duration =
        .error .DurationTooShort) ∧
    (s.members sender = true → 2 ≤ options.length → options.length ≤ 10 →
      MIN_VOTING_DURATION ≤ duration → title.length = 0 →
      createProposal now s sender title description options duration =
        .error .EmptyTitle) ∧
    (s.members sender = true → 2 ≤ options.length → options.length ≤ 10 →
      MIN_VOTING_DURATION ≤ duration → 0 < title.length →
      description.length = 0 →
      createProposal now s sender title description options duration =
        .error .EmptyDescription) := by
  refine ⟨?_, ?_, ?_, ?_, ?_, ?_⟩
  · intro m1
    rw [createProposal, if_neg (by simp [m1])]
  · intro m1 m2
    rw [createProposal, if_pos m1, if_neg (by omega)]
  · intro m1 m2 m3
    rw [createProposal, if_pos m1, if_pos m2, if_neg (by omega)]
  · intro m1 m2 m3 m4
    rw [createProposal, if_pos m1, if_pos m2, if_pos m3, if_neg (by omega)]
  · intro m1 m2 m3 m4 m5
    rw [createProposal, if_pos m1, if_pos m2, if_pos m3, if_pos m4,
      if_neg (by omega)]
  · intro m1 m2 m3 m4 m5 m6
    rw [createProposal, if_pos m1, if_pos m2, if_pos m3, if_pos m4,
      if_pos m5, if_neg (by omega)]

/-- Full characterization of a successful `executeProposal`. -/
lemma executeProposal_ok_spec (now : Nat) (s : DAOSt) (p : Nat)
    (s' : DAOSt) (h : executeProposal now s p = .ok s') :
    s'.proposals = (fun q => if q = p then
        { s.proposals p with executed := true } else s.proposals q) ∧
    s'.members = s.members ∧ s'.memberCommitments = s.memberCommitments ∧
    s'.leaves = s.leaves ∧ s'.membershipRoots = s.membershipRoots ∧
    s'.currentRootIndex = s.currentRootIndex ∧
    s'.proposalOptions = s.proposalOptions ∧
    s'.proposalCount = s.proposalCount ∧
    s'.nullifierHashes = s.nullifierHashes ∧
    s'.proposalVotes = s.proposalVotes := by
  rw [executeProposal] at h
  by_cases e1 : p < s.proposalCount
  case neg => rw [if_neg e1] at h; exact Except.noConfusion h
  rw [if_pos e1] at h
  by_cases e2 : (s.proposals p).endTime < now
  case neg => rw [if_neg e2] at h; exact Except.noConfusion h
  rw [if_pos e2] at h
  by_cases e3 : (s.proposals p).executed = true
  case pos => rw [if_pos e3] at h; exact Except.noConfusion h
  rw [if_neg e3] at h
  injection h with h
  subst h
  exact ⟨rfl, rfl, rfl, rfl, rfl, rfl, rfl, rfl, rfl, rfl⟩

/-- Full characterization of a successful `_insertMember`: preconditions,
published root, appended leaf, and the single ring-buffer write at
`(currentRootIndex + 1) % ROOT_HISTORY_SIZE`. -/
lemma insertMember_ok_spec (E : Env) (s : DAOSt) (c : Nat)
    (r : DAOSt × Nat) (h : insertMember E s c = .ok r) :
    c ≠ 0 ∧ s.leaves.contains c = false ∧
    E.tree.depth (s.leaves ++ [c]) ≤ MAX_TREE_DEPTH ∧
    r.2 = E.tree.root (s.leaves ++ [c]) ∧
    r.1.leaves = s.leaves ++ [c] ∧
    r.1.currentRootIndex = (s.currentRootIndex + 1) % ROOT_HISTORY_SIZE ∧
    r.1.membershipRoots = (fun i =>
      if i = (s.currentRootIndex + 1) % ROOT_HISTORY_SIZE then
        E.tree.root (s.leaves ++ [c])
      else s.membershipRoots i) ∧
    r.1.members = s.members ∧ r.1.memberCommitments = s.memberCommitments ∧
    r.1.proposals = s.proposals ∧ r.1.proposalOptions = s.proposalOptions ∧
    r.1.proposalCount = s.proposalCount ∧
    r.1.nullifierHashes = s.nullifierHashes ∧
    r.1.proposalVotes = s.proposalVotes := by
  rw [insertMember] at h
  by_cases i1 : c = 0
  case pos => rw [if_pos i1] at h; exact Except.noConfusion h
  rw [if_neg i1] at h
  by_cases i2 : s.leaves.contains c = true
  case pos => rw [if_pos i2] at h; exact Except.noConfusion h
  rw [if_neg i2] at h
  by_cases i3 : MAX_TREE_DEPTH < E.tree.depth (s.leaves ++ [c])
  case pos => rw [if_pos i3] at h; exact Except.noConfusion h
  rw [if_neg i3] at h
  injection h with h
  subst h
  exact ⟨i1, by simpa using i2, by omega, rfl, rfl, rfl, rfl, rfl, rfl,
    rfl, rfl, rfl, rfl, rfl⟩

/-- Frame of a successful `joinDAO`: it appends one leaf, performs one
ring-buffer write, flags the sender, and leaves the proposal and vote
state untouched. -/
lemma joinDAO_ok_spec (E : Env) (s : DAOSt) (a c : Nat) (s' : DAOSt)
    (h : joinDAO E s a c = .ok s') :
    s'.leaves = s.leaves ++ [c] ∧
    s'.currentRootIndex = (s.currentRootIndex + 1) % ROOT_HISTORY_SIZE ∧
    s'.membershipRoots = (fun i =>
      if i = (s.currentRootIndex + 1) % ROOT_HISTORY_SIZE then
        E.tree.root (s.leaves ++ [c])
      else s.membershipRoots i) ∧
    s'.proposals = s.proposals ∧ s'.proposalOptions = s.proposalOptions ∧
    s'.proposalCount = s.proposalCount ∧
    s'.nullifierHashes = s.nullifierHashes ∧
    s'.proposalVotes = s.proposalVotes := by
  rw [joinDAO] at h
  by_cases j1 : s.members a = true
  case pos => rw [if_pos j1] at h; exact Except.noConfusion h
  rw [if_neg j1] at h
  by_cases j2 : c = 0
  case pos => rw [if_pos j2] at h; exact Except.noConfusion h
  rw [if_neg j2] at h
  cases hins : insertMember E
      { s with
          members := fun x => if x = a then true else s.members x,
          memberCommitments := fun x =>
            if x = a then c else s.memberCommitments x }
      c with
  | error e => rw [hins] at h; exact Except.noConfusion h
  | ok r =>
    rw [hins] at h
    injection h with h
    subst h
    have hspec := insertMember_ok_spec E _ c r hins
    exact ⟨hspec.2.2.2.2.1, hspec.2.2.2.2.2.1, hspec.2.2.2.2.2.2.1,
      hspec.2.2.2.2.2.2.2.2.2.1, hspec.2.2.2.2.2.2.2.2.2.2.1,
      hspec.2.2.2.2.2.2.2.2.2.2.2.1, hspec.2.2.2.2.2.2.2.2.2.2.2.2.1,
      hspec.2.2.2.2.2.2.2.2.2.2.2.2.2⟩

/-- The ring-buffer scan finds a root exactly when some step `i < fuel`
of the backward walk from the start index lands on a slot holding it. -/
lemma scanRoots_iff (s : DAOSt) (root : Nat) :
    ∀ (n idx : Nat), idx < 64 →
      (scanRoots s root n idx = true ↔
        ∃ i, i < n ∧ root = s.membershipRoots ((idx + 63 * i) % 64)) := by
  have hR : ROOT_HISTORY_SIZE = 64 := rfl
  intro n
  induction n with
  | zero => intro idx hidx; simp [scanRoots]
  | succ n ih =>
    intro idx hidx
    rw [scanRoots]
    simp only [hR]
    by_cases hr : root = s.membershipRoots idx
    · rw [if_pos hr]
      refine iff_of_true rfl ⟨0, by omega, ?_⟩
      rw [Nat.mul_zero, Nat.add_zero, Nat.mod_eq_of_lt hidx]
      exact hr
    · rw [if_neg hr]
      have hlt : (idx + 63) % 64 < 64 := by omega
      rw [ih _ hlt]
      constructor
      · rintro ⟨i, hi, he⟩
        refine ⟨i + 1, by omega, ?_⟩
        rw [he]
        congr 1
        omega
      · rintro ⟨i, hi, he⟩
        match i with
        | 0 =>
          rw [Nat.mul_zero, Nat.add_zero, Nat.mod_eq_of_lt hidx] at he
          exact absurd he hr
        | j + 1 =>
          refine ⟨j, by omega, ?_⟩
          rw [he]
          congr 1
          omega

/-- `_isKnownMembershipRoot` holds exactly for a non-zero root stored in
some slot of the ring buffer (the backward scan visits every slot). -/
lemma isKnownMembershipRoot_iff (s : DAOSt) (root : Nat)
    (hcur : s.currentRootIndex < 64) :
    isKnownMembershipRoot s root = true ↔
      (root ≠ 0 ∧ ∃ j, j < 64 ∧ root = s.membershipRoots j) := by
  have hR : ROOT_HISTORY_SIZE = 64 := rfl
  rw [isKnownMembershipRoot]
  by_cases h0 : root = 0
  · rw [if_pos h0]
    exact iff_of_false Bool.false_ne_true (fun hc => hc.1 h0)
  · rw [if_neg h0]
    rw [scanRoots_iff s root ROOT_HISTORY_SIZE s.currentRootIndex hcur]
    simp only [hR]
    constructor
    · rintro ⟨i, hi, he⟩
      exact ⟨h0, (s.currentRootIndex + 63 * i) % 64, by omega, he⟩
    · rintro ⟨-, j, hj, he⟩
      refine ⟨(s.currentRootIndex + 64 - j) % 64, by omega, ?_⟩
      rw [he]
      congr 1
      omega

/-- `insertAll` processes an appended element last. -/
lemma insertAll_append (E : Env) (s : DAOSt) (xs : List Nat) (c : Nat) :
    insertAll E s (xs ++ [c]) =
      (insertAll E s xs).bind
        (fun s1 => (insertMember E s1 c).map Prod.fst) := by
  induction xs generalizing s with
  | nil =>
    rw [List.nil_append]
    conv_lhs => rw [insertAll]
    change _ = (insertMember E s c).map Prod.fst
    cases hins : insertMember E s c with
    | error e => rfl
    | ok r =>
      obtain ⟨s1, rt⟩ := r
      rfl
  | cons x xs ih =>
    rw [List.cons_append, insertAll, insertAll]
    cases hins : insertMember E s x with
    | error e => rfl
    | ok r =>
      obtain ⟨s1, rt⟩ := r
      exact ih s1

/-- When the written slot `(k % 64 + 1) % 64` is read back right after
the `(k+1)`-th insertion, it holds the `(k+1)`-th root. -/
lemma histVal_write (E : Env) (L : List Nat) (k j : Nat) (hk : k ≤ 64)
    (hj : j < 64) (hjw : j = (k % 64 + 1) % 64) :
    histVal E L (k + 1) j = E.tree.root (L.take (k + 1)) := by
  rw [histVal]
  rcases (by omega :
      (k ≤ 62 ∧ j = k + 1) ∨ (k = 63 ∧ j = 0) ∨ (k = 64 ∧ j = 1)) with
    ⟨hk1, hj1⟩ | ⟨hk1, hj1⟩ | ⟨hk1, hj1⟩
  · subst hj1
    rw [if_neg (by omega)]
    by_cases hk0 : k = 0
    · subst hk0
      rw [if_pos (by omega), if_neg (by omega), if_pos (by omega)]
    · rw [if_neg (by omega), if_pos (by omega)]
  · subst hj1
    subst hk1
    rw [if_pos rfl, if_pos (by omega)]
  · subst hj1
    subst hk1
    rw [if_neg (by omega), if_pos rfl, if_pos (by omega)]

/-- A slot different from the one written by the `(k+1)`-th insertion
keeps its previous content. -/
lemma histVal_step_ne (E : Env) (xs : List Nat) (c : Nat) (j : Nat)
    (hk : xs.length ≤ 64) (hj : j < 64)
    (hjw : j ≠ (xs.length % 64 + 1) % 64) :
    histVal E (xs ++ [c]) (xs.length + 1) j = histVal E xs xs.length j := by
  rw [histVal, histVal]
  by_cases h0 : j = 0
  · rw [if_pos h0, if_pos h0]
    by_cases h64 : 64 ≤ xs.length
    · rw [if_pos (by omega), if_pos h64]
      congr 1
      exact List.take_append_of_le_length (by omega)
    · rw [if_neg (by omega), if_neg h64]
  rw [if_neg h0, if_neg h0]
  by_cases h1 : j = 1
  · rw [if_pos h1, if_pos h1]
    rw [if_neg (by omega), if_pos (by omega), if_neg (by omega),
      if_pos (by omega)]
    congr 1
    exact List.take_append_of_le_length (by omega)
  rw [if_neg h1, if_neg h1]
  by_cases hjk : j ≤ xs.length
  · rw [if_pos (by omega), if_pos hjk]
    congr 1
    exact List.take_append_of_le_length (by omega)
  · rw [if_neg (by omega), if_neg hjk]

/-- After any run of at most 65 successful insertions from the empty
state, the ring buffer holds exactly the slot contents described by
`histVal`, the write index is the insertion count modulo 64, and the
leaves are the inserted commitments. -/
lemma insertAll_hist (E : Env) (L : List Nat) (s' : DAOSt)
    (hk : L.length ≤ 65) (h : insertAll E initState L = .ok s') :
    s'.currentRootIndex = L.length % 64 ∧ s'.leaves = L ∧
      ∀ j, j < 64 → s'.membershipRoots j = histVal E L L.length j := by
  have hR : ROOT_HISTORY_SIZE = 64 := rfl
  induction L using List.reverseRecOn generalizing s' with
  | nil =>
    rw [insertAll] at h
    injection h with h
    subst h
    refine ⟨rfl, rfl, fun j hj => ?_⟩
    rw [histVal]
    by_cases j0 : j = 0
    · rw [if_pos j0, if_neg (by simp only [List.length_nil]; omega)]
      rfl
    · rw [if_neg j0]
      by_cases j1 : j = 1
      · rw [if_pos j1, if_neg (by simp only [List.length_nil]; omega),
          if_neg (by simp only [List.length_nil]; omega)]
        rfl
      · rw [if_neg j1, if_neg (by simp only [List.length_nil]; omega)]
        rfl
  | append_singleton xs c ih =>
    rw [insertAll_append] at h
    cases hmid : insertAll E initState xs with
    | error e => rw [hmid] at h; exact Except.noConfusion h
    | ok smid =>
      rw [hmid] at h
      have hlen : xs.length ≤ 64 := by
        rw [List.length_append, List.length_singleton] at hk
        omega
      obtain ⟨hcur, hleaves, hroots⟩ := ih smid (by omega) hmid
      replace h : (insertMember E smid c).map Prod.fst = Except.ok s' := h
      cases hins : insertMember E smid c with
      | error e =>
        rw [hins] at h
        exact Except.noConfusion h
      | ok r =>
        rw [hins] at h
        obtain ⟨s1, rt⟩ := r
        injection h with h
        subst h
        have hspec := insertMember_ok_spec E smid c ⟨s1, rt⟩ hins
        have hlapp : (xs ++ [c]).length = xs.length + 1 := by
          rw [List.length_append, List.length_singleton]
        refine ⟨?_, ?_, fun j hj => ?_⟩
        · have hc : (⟨s1, rt⟩ : DAOSt × Nat).1.currentRootIndex =
              (smid.currentRootIndex + 1) % ROOT_HISTORY_SIZE :=
            hspec.2.2.2.2.2.1
          rw [hlapp]
          rw [hc, hcur, hR]
          omega
        · have hl : (⟨s1, rt⟩ : DAOSt × Nat).1.leaves =
              smid.leaves ++ [c] := hspec.2.2.2.2.1
          rw [hl, hleaves]
        · have hrj := congrFun hspec.2.2.2.2.2.2.1 j
          simp only at hrj
          rw [hcur, hleaves, hR] at hrj
          rw [hlapp, hrj]
          by_cases hjw : j = (xs.length % 64 + 1) % 64
          · rw [if_pos hjw]
            rw [histVal_write E (xs ++ [c]) xs.length j hlen hj hjw]
            congr 1
            have : xs.length + 1 = (xs ++ [c]).length := hlapp.symm
            rw [this, List.take_length]
          · rw [if_neg hjw]
            rw [histVal_step_ne E xs c j hlen hj hjw]
            exact hroots j hj

/-- After `N ≤ 64` successful insertions from the empty state, every one
of the `N` published (non-zero) roots is still found by
`isKnownMembershipRoot`. -/
lemma insertAll_le64_known (E : Env) (cs : List Nat) (N : Nat) (s' : DAOSt)
    (hN : N ≤ 64) (hNlen : N ≤ cs.length)
    (h : insertAll E initState (cs.take N) = .ok s') (k : Nat) (hk : k < N)
    (hnz : E.tree.root (cs.take (k + 1)) ≠ 0) :
    isKnownMembershipRoot s' (E.tree.root (cs.take (k + 1))) = true := by
  have hlen : (cs.take N).length = N := by
    rw [List.length_take]
    omega
  obtain ⟨hcur, -, hroots⟩ :=
    insertAll_hist E (cs.take N) s' (by omega) h
  rw [isKnownMembershipRoot_iff s' _ (by rw [hcur, hlen]; omega)]
  refine ⟨hnz, ?_⟩
  by_cases hk64 : k + 1 ≤ 63
  · refine ⟨k + 1, by omega, ?_⟩
    rw [hroots (k + 1) (by omega), hlen, histVal]
    by_cases hk1 : k + 1 = 1
    · rw [if_neg (by omega), if_pos hk1, if_neg (by omega),
        if_pos (by omega)]
      have ht : (cs.take N).take 1 = cs.take (k + 1) := by
        rw [List.take_take]
        congr 1
        omega
      rw [ht]
    · rw [if_neg (by omega), if_neg hk1, if_pos (by omega)]
      have ht : (cs.take N).take (k + 1) = cs.take (k + 1) := by
        rw [List.take_take]
        congr 1
        omega
      rw [ht]
  · refine ⟨0, by omega, ?_⟩
    rw [hroots 0 (by omega), hlen, histVal]
    rw [if_pos rfl, if_pos (by omega)]
    have ht : (cs.take N).take 64 = cs.take (k + 1) := by
      rw [List.take_take]
      congr 1
      omega
    rw [ht]

/-- After the 65th successful insertion the very first published root no
longer appears in the buffer (it was overwritten), provided the later 64
roots all differ from it. -/
lemma insertAll_65_first_unknown (E : Env) (cs : List Nat) (s' : DAOSt)
    (hlen65 : 65 ≤ cs.length)
    (h : insertAll E initState (cs.take 65) = .ok s')
    (hdist : ∀ j, 2 ≤ j → j ≤ 65 →
      E.tree.root (cs.take j) ≠ E.tree.root (cs.take 1)) :
    isKnownMembershipRoot s' (E.tree.root (cs.take 1)) = false := by
  have hlen : (cs.take 65).length = 65 := by
    rw [List.length_take]
    omega
  obtain ⟨hcur, -, hroots⟩ :=
    insertAll_hist E (cs.take 65) s' (by omega) h
  rw [← Bool.not_eq_true]
  intro htrue
  obtain ⟨hnz, j, hj, he⟩ :=
    (isKnownMembershipRoot_iff s' _ (by rw [hcur, hlen]; omega)).mp htrue
  rw [hroots j hj, hlen, histVal] at he
  by_cases j0 : j = 0
  · rw [if_pos j0, if_pos (by omega)] at he
    rw [List.take_take, (by omega : (64 : Nat) ⊓ 65 = 64)] at he
    exact hdist 64 (by omega) (by omega) he.symm
  rw [if_neg j0] at he
  by_cases j1 : j = 1
  · rw [if_pos j1, if_pos rfl] at he
    rw [List.take_take, (by omega : (65 : Nat) ⊓ 65 = 65)] at he
    exact hdist 65 (by omega) (by omega) he.symm
  rw [if_neg j1, if_pos (by omega)] at he
  rw [List.take_take, (by omega : j ⊓ 65 = j)] at he
  exact hdist j (by omega) (by omega) he.symm

/-- The standing state invariants of the composed contract: the write
index tracks the number of joins modulo the buffer size, slots at or
beyond `ROOT_HISTORY_SIZE` are never written, and slot 0 stays zero until
the 64th join. -/
lemma reachable_inv (E : Env) (s : DAOSt) (h : Reachable E s) :
    s.currentRootIndex = s.leaves.length % ROOT_HISTORY_SIZE ∧
    (∀ j, ROOT_HISTORY_SIZE ≤ j → s.membershipRoots j = 0) ∧
    (s.leaves.length < 64 → s.membershipRoots 0 = 0) := by
  have hR : ROOT_HISTORY_SIZE = 64 := rfl
  induction h with
  | init => exact ⟨rfl, fun j hj => rfl, fun _ => rfl⟩
  | join s s' sender c hre hok ih =>
    obtain ⟨hleaves, hcur, hroots, -, -, -, -, -⟩ :=
      joinDAO_ok_spec E s sender c s' hok
    obtain ⟨ihcur, ihhi, ihz⟩ := ih
    refine ⟨?_, ?_, ?_⟩
    · rw [hcur, hleaves, ihcur, List.length_append, List.length_singleton,
        hR]
      omega
    · intro j hj
      rw [congrFun hroots j]
      rw [if_neg (by rw [hR] at hj ⊢; omega)]
      exact ihhi j hj
    · intro hlt
      rw [hleaves, List.length_append, List.length_singleton] at hlt
      rw [congrFun hroots 0]
      rw [if_neg (by rw [ihcur, hR]; omega)]
      exact ihz (by omega)
  | create s s' now sender title description options duration ev hre hok ih =>
    obtain ⟨-, -, -, -, -, -, hleaves, hroots, hcur, -, -⟩ :=
      createProposal_ok_spec now s sender title description options
        duration (s', ev) hok
    exact ⟨by rw [hcur, hleaves]; exact ih.1,
      by rw [hroots]; exact ih.2.1,
      by rw [hroots, hleaves]; exact ih.2.2⟩
  | voteStep s s' now p o vd ev hre hok ih =>
    obtain ⟨-, -, -, -, -, -, hleaves, hroots, hcur, -, -⟩ :=
      vote_ok_spec E now s p o vd (s', ev) hok
    exact ⟨by rw [hcur, hleaves]; exact ih.1,
      by rw [hroots]; exact ih.2.1,
      by rw [hroots, hleaves]; exact ih.2.2⟩
  | execStep s s' now p hre hok ih =>
    obtain ⟨-, -, -, hleaves, hroots, hcur, -, -, -, -⟩ :=
      executeProposal_ok_spec now s p s' hok
    exact ⟨by rw [hcur, hleaves]; exact ih.1,
      by rw [hroots]; exact ih.2.1,
      by rw [hroots, hleaves]; exact ih.2.2⟩

/-- The concrete two-step state (one join, one proposal) is reachable. -/
lemma cexS2_reachable : Reachable cexEnv cexS2 :=
  Reachable.create cexS1 cexS2 0 1 "t" "d" ["a", "b"] 3600 cexEvCreate
    (Reachable.join initState cexS1 1 5 Reachable.init rfl) rfl

/-! Claim theorems. -/

/-- C1 (counterexample): after a first successful vote consuming
nullifier 9, a second `vote` call presenting the same nullifier but an
out-of-range option index fails with the invalid-option error, not with
the nullifier-already-used error — so the claim's "fails with the
nullifier-already-used error" does not hold for every second call. -/
theorem C1_counterexample :
    vote cexEnv 0 cexS2 0 0 cexVd = .ok cexPair ∧
    cexS3.nullifierHashes cexVd.proof.nullifier = true ∧
    vote cexEnv 0 cexS3 0 5 cexVd = .error .InvalidOption ∧
    vote cexEnv 0 cexS3 0 5 cexVd ≠ .error .AlreadyVoted := by
  refine ⟨rfl, rfl, rfl, ?_⟩
  intro hc
  have h3 : vote cexEnv 0 cexS3 0 5 cexVd = .error .InvalidOption := rfl
  rw [h3] at hc
  simp at hc

/-- C1 (amended): after a first successful `vote`, any second `vote`
call presenting the same nullifier — for any proposal, option, time and
proof — fails (so, the call reverting, every tally entry, `totalVotes`
and the nullifier map are left exactly as they were), and it fails with
the nullifier-already-used error whenever the target proposal exists,
the time is inside its window and the option index is in range. -/
theorem C1_one_nullifier_one_vote (E : Env) (now : Nat) (s : DAOSt)
    (p o : Nat) (vd : VoteData) (r : DAOSt × VoteCastEv)
    (h : vote E now s p o vd = .ok r) (now2 p2 o2 : Nat) (vd2 : VoteData)
    (hn : vd2.proof.nullifier = vd.proof.nullifier) :
    resultOk (vote E now2 r.1 p2 o2 vd2) = false ∧
    (p2 < r.1.proposalCount → (r.1.proposals p2).startTime ≤ now2 →
      now2 ≤ (r.1.proposals p2).endTime →
      o2 < (r.1.proposals p2).optionCount →
      vote E now2 r.1 p2 o2 vd2 = .error .AlreadyVoted) := by
  have hspec := vote_ok_spec E now s p o vd r h
  have hused : r.1.nullifierHashes vd2.proof.nullifier = true := by
    rw [congrFun hspec.2.1 vd2.proof.nullifier, hn]
    simp
  constructor
  · rw [← Bool.not_eq_true, vote_isOk_iff]
    intro hc
    rw [hc.2.2.2.2.1] at hused
    exact Bool.false_ne_true hused
  · intro a1 a2 a3 a4
    exact vote_nullifier_used_error E now2 r.1 p2 o2 vd2 a1 a2 a3 a4 hused

/-- C1 (witness): in the concrete scenario the second call for the
other (in-range) option of the same proposal fails with the
nullifier-already-used error. -/
theorem C1_witness :
    resultOk (vote cexEnv 0 cexPair.1 0 1 cexVd) = false ∧
    vote cexEnv 0 cexPair.1 0 1 cexVd = .error .AlreadyVoted := by
  have t := C1_one_nullifier_one_vote cexEnv 0 cexS2 0 0 cexVd cexPair rfl
    0 0 1 cexVd rfl
  exact ⟨t.1, t.2 (by decide) (by decide) (by decide) (by decide)⟩

/-- C2 (counterexample): a vote payload declaring tree depth 0 — outside
`[MIN_TREE_DEPTH, MAX_TREE_DEPTH]`, so admission step 6 fails — is
nevertheless approved by the paymaster's embedded check (under a
verifier that accepts it), while the ledger's own `vote` rejects the
same payload with the invalid-tree-depth error: the paymaster does not
re-run the depth-bounds check. -/
theorem C2_counterexample :
    paymasterVote cexVerifier (fun v => v) 7 cexS2 0 0 cexVdD0 = .ok () ∧
    ¬(MIN_TREE_DEPTH ≤ cexVdD0.proof.merkleTreeDepth ∧
      cexVdD0.proof.merkleTreeDepth ≤ MAX_TREE_DEPTH) ∧
    vote cexEnv 0 cexS2 0 0 cexVdD0 = .error .InvalidTreeDepth :=
  ⟨rfl, by decide, rfl⟩

/-- C2 (amended): the paymaster's embedded check re-runs admission steps
3, 4, 5 and 7 — nullifier unused, scope match, non-zero root match at
the supplied history index, proof verification — as a read-only check
and approves exactly when all four hold; it declines whenever any of
these four fails, but it omits step 6, the tree-depth bounds check. -/
theorem C2_sponsor_checks (V : Verifier) (hashv : Nat → Nat)
    (daoScope : Nat) (s : DAOSt) (p o : Nat) (vd : VoteData) :
    paymasterVote V hashv daoScope s p o vd = .ok () ↔
      (s.nullifierHashes vd.proof.nullifier = false ∧
        vd.proof.scope = daoScope ∧
        vd.proof.merkleTreeRoot = s.membershipRoots vd.config.merkleRootIndex ∧
        s.membershipRoots vd.config.merkleRootIndex ≠ 0 ∧
        validateProofWith V hashv vd.proof = true) :=
  paymasterVote_ok_iff V hashv daoScope s p o vd

/-- C3 (counterexample): the paymaster approves a user operation whose
inner call votes on proposal 5, which does not exist, so the direct
`vote` call with the same parameters in the same state fails (with the
invalid-proposal error) instead of succeeding. -/
theorem C3_counterexample :
    validatePaymasterUserOp cexPmConfig cexEnv.verifier cexEnv.hashv
      cexEnv.scope cexS1 (cexUserOp 5 0 cexVd) 10 = .ok 0 ∧
    vote cexEnv 0 cexS1 5 0 cexVd = .error .InvalidProposal ∧
    resultOk (vote cexEnv 0 cexS1 5 0 cexVd) = false :=
  ⟨rfl, rfl, rfl⟩

/-- C3 (amended): a vote payload the paymaster approves does succeed as
a direct `vote` call in the same state, provided additionally that the
target proposal exists, the time is inside its voting window, the option
index is in range, and the declared tree depth is within bounds — the
four admission conditions the paymaster does not check. -/
theorem C3_sponsorship_implies_vote (cfg : PmConfig) (E : Env)
    (s : DAOSt) (userOp : UserOp) (maxCost now : Nat) (p o : Nat)
    (vd : VoteData) (c : ExecCall) (hcd : userOp.callData = .execute c)
    (hdata : c.data = .voteCall p o vd)
    (happrove : validatePaymasterUserOp cfg E.verifier E.hashv E.scope s
      userOp maxCost = .ok 0)
    (hp : p < s.proposalCount) (hstart : (s.proposals p).startTime ≤ now)
    (hend : now ≤ (s.proposals p).endTime)
    (ho : o < (s.proposals p).optionCount)
    (hdepth : MIN_TREE_DEPTH ≤ vd.proof.merkleTreeDepth ∧
      vd.proof.merkleTreeDepth ≤ MAX_TREE_DEPTH) :
    resultOk (vote E now s p o vd) = true := by
  obtain ⟨-, -, hpm⟩ :=
    validatePaymasterUserOp_ok0 cfg E.verifier E.hashv E.scope s userOp
      maxCost c p o vd happrove hcd hdata
  obtain ⟨c1, c2, c3, c4, c5⟩ :=
    (paymasterVote_ok_iff E.verifier E.hashv E.scope s p o vd).mp hpm
  exact (vote_isOk_iff E now s p o vd).mpr
    ⟨hp, hstart, hend, ho, c1, c2, c3, c4, hdepth.1, hdepth.2, c5⟩

/-- C3 (witness): the concrete approved payload for the existing
proposal 0, option 0, does succeed as a direct vote. -/
theorem C3_witness : resultOk (vote cexEnv 0 cexS2 0 0 cexVd) = true :=
  C3_sponsorship_implies_vote cexPmConfig cexEnv cexS2
    (cexUserOp 0 0 cexVd) 10 0 0 0 cexVd
    { target := 4, value := 0, data := .voteCall 0 0 cexVd }
    rfl rfl rfl (by decide) (by decide) (by decide) (by decide)
    ⟨by decide, by decide⟩

/-- C4: starting from the empty accumulator, after any `N ≤ 64`
successful insertions every one of the `N` published roots is reported
known by `isKnownMembershipRoot` (published roots are non-zero by
hypothesis, as roots of non-empty trees), and after the 65th successful
insertion the root published by the very first insertion is reported
unknown (the 65 published roots being pairwise distinct from the first,
as roots of strictly growing trees). -/
theorem C4_root_history (E : Env) (cs : List Nat) (N : Nat)
    (s' s'' : DAOSt) (hN : N ≤ 64) (hNlen : N ≤ cs.length)
    (hlen65 : 65 ≤ cs.length)
    (hA : insertAll E initState (cs.take N) = .ok s')
    (hB : insertAll E initState (cs.take 65) = .ok s'')
    (hnz : ∀ k, k < N → E.tree.root (cs.take (k + 1)) ≠ 0)
    (hdist : ∀ j, 2 ≤ j → j ≤ 65 →
      E.tree.root (cs.take j) ≠ E.tree.root (cs.take 1)) :
    (∀ k, k < N →
      isKnownMembershipRoot s' (E.tree.root (cs.take (k + 1))) = true) ∧
    isKnownMembershipRoot s'' (E.tree.root (cs.take 1)) = false :=
  ⟨fun k hk => insertAll_le64_known E cs N s' hN hNlen hA k hk (hnz k hk),
    insertAll_65_first_unknown E cs s'' hlen65 hB hdist⟩

/-- C4 (witness): with 65 concrete insertions whose published roots are
1..65, the first root is known after 64 insertions and unknown after the
65th. -/
theorem C4_witness :
    isKnownMembershipRoot c4S64 (c4Env.tree.root (c4List.take 1)) = true ∧
    isKnownMembershipRoot c4S65 (c4Env.tree.root (c4List.take 1)) = false := by
  have t := C4_root_history c4Env c4List 64 c4S64 c4S65 (by decide)
    (by decide) (by decide) rfl rfl (by decide) (by decide)
  exact ⟨t.1 0 (by decide), t.2⟩

/-- C5: a `vote` call that passes all admission checks has exactly this
effect: the proof's nullifier is marked used (no other nullifier entry
changes), `tally[proposalId][optionIndex]` grows by one (no other tally
entry changes), the proposal's `totalVotes` grows by one (none of its
other fields and no other proposal changes), a vote-cast record carrying
only `(proposalId, optionIndex, nullifier)` is emitted, and the
membership state, proposal options, proposal count, member maps and
write index are untouched. -/
theorem C5_vote_success_effects (E : Env) (now : Nat) (s : DAOSt)
    (p o : Nat) (vd : VoteData) (r : DAOSt × VoteCastEv)
    (h : vote E now s p o vd = .ok r) :
    r.2 = ⟨p, o, vd.proof.nullifier⟩ ∧
    r.1.nullifierHashes =
      (fun n => if n = vd.proof.nullifier then true else s.nullifierHashes n) ∧
    r.1.proposalVotes =
      (fun p' o' => if p' = p ∧ o' = o then s.proposalVotes p' o' + 1
        else s.proposalVotes p' o') ∧
    r.1.proposals =
      (fun q => if q = p then
          { s.proposals p with totalVotes := (s.proposals p).totalVotes + 1 }
        else s.proposals q) ∧
    r.1.members = s.members ∧ r.1.memberCommitments = s.memberCommitments ∧
    r.1.leaves = s.leaves ∧ r.1.membershipRoots = s.membershipRoots ∧
    r.1.currentRootIndex = s.currentRootIndex ∧
    r.1.proposalCount = s.proposalCount ∧
    r.1.proposalOptions = s.proposalOptions :=
  vote_ok_spec E now s p o vd r h

/-- C5 (witness): the concrete first vote emits `(0, 0, 9)` and leaves
the member map untouched. -/
theorem C5_witness :
    cexPair.2 = ⟨0, 0, 9⟩ ∧ cexPair.1.members = cexS2.members := by
  have t := C5_vote_success_effects cexEnv 0 cexS2 0 0 cexVd cexPair rfl
  exact ⟨t.1, t.2.2.2.2.1⟩

/-- C6 (counterexample): a `vote` call declaring depth 0 but aimed at a
proposal that does not exist fails with the invalid-proposal error, not
with the invalid-tree-depth error — so "fails with the invalid-tree-depth
error" does not hold for every call with an out-of-bounds depth. -/
theorem C6_counterexample :
    cexVdD0.proof.merkleTreeDepth = 0 ∧
    vote cexEnv 0 cexS2 5 0 cexVdD0 = .error .InvalidProposal ∧
    vote cexEnv 0 cexS2 5 0 cexVdD0 ≠ .error .InvalidTreeDepth := by
  refine ⟨rfl, rfl, ?_⟩
  intro hc
  have h3 : vote cexEnv 0 cexS2 5 0 cexVdD0 = .error .InvalidProposal := rfl
  rw [h3] at hc
  simp at hc

/-- C6 (amended): a `vote` call whose proof declares depth 0 or 33 never
succeeds, evaluates to the identical result under every possible
verifier (the verifier is never consulted), and fails with exactly the
invalid-tree-depth error whenever admission steps 1–5 pass. -/
theorem C6_depth_bounds (E : Env) (now : Nat) (s : DAOSt) (p o : Nat)
    (vd : VoteData) (V2 : Verifier)
    (hd : vd.proof.merkleTreeDepth = 0 ∨ vd.proof.merkleTreeDepth = 33) :
    resultOk (vote E now s p o vd) = false ∧
    vote E now s p o vd =
      vote (Env.mk E.scope V2 E.hashv E.tree) now s p o vd ∧
    (p < s.proposalCount → (s.proposals p).startTime ≤ now →
      now ≤ (s.proposals p).endTime → o < (s.proposals p).optionCount →
      s.nullifierHashes vd.proof.nullifier = false →
      vd.proof.scope = E.scope →
      vd.proof.merkleTreeRoot = s.membershipRoots vd.config.merkleRootIndex →
      s.membershipRoots vd.config.merkleRootIndex ≠ 0 →
      vote E now s p o vd = .error .InvalidTreeDepth) := by
  have hnb : ¬(MIN_TREE_DEPTH ≤ vd.proof.merkleTreeDepth ∧
      vd.proof.merkleTreeDepth ≤ MAX_TREE_DEPTH) := by
    rcases hd with h | h <;> rw [h] <;> decide
  refine ⟨?_, ?_, ?_⟩
  · rw [← Bool.not_eq_true, vote_isOk_iff]
    intro hc
    exact hnb ⟨hc.2.2.2.2.2.2.2.2.1, hc.2.2.2.2.2.2.2.2.2.1⟩
  · exact vote_env_agree E (Env.mk E.scope V2 E.hashv E.tree) rfl now s p
      o vd hnb
  · intro a1 a2 a3 a4 a5 a6 a7 a8
    exact vote_invalid_depth_error E now s p o vd a1 a2 a3 a4 a5 a6
      ⟨a7, a8⟩ hnb

/-- C6 (witness): the concrete depth-0 call fails with the
invalid-tree-depth error and its result does not depend on the
verifier. -/
theorem C6_witness :
    resultOk (vote cexEnv 0 cexS2 0 0 cexVdD0) = false ∧
    vote cexEnv 0 cexS2 0 0 cexVdD0 =
      vote (Env.mk cexEnv.scope (fun _ _ _ _ _ => false) cexEnv.hashv
        cexEnv.tree) 0 cexS2 0 0 cexVdD0 ∧
    vote cexEnv 0 cexS2 0 0 cexVdD0 = .error .InvalidTreeDepth := by
  have t := C6_depth_bounds cexEnv 0 cexS2 0 0 cexVdD0
    (fun _ _ _ _ _ => false) (Or.inl rfl)
  exact ⟨t.1, t.2.1, t.2.2 (by decide) (by decide) (by decide) (by decide)
    (by decide) (by decide) (by decide) (by decide)⟩

/-- C7: admission steps 3–7 never read the proposal id or the option
index — for two `vote` calls with the same vote data that differ only in
`(proposalId, optionIndex)`, both targets existing, inside their window
and with in-range option indices, the calls both succeed or both fail
with the same error, so a proof produced under this instance's scope is
accepted for any proposal and option of the instance. -/
theorem C7_proof_not_bound_to_target (E : Env) (now : Nat) (s : DAOSt)
    (vd : VoteData) (p1 o1 p2 o2 : Nat) (ha1 : p1 < s.proposalCount)
    (ha2 : (s.proposals p1).startTime ≤ now)
    (ha3 : now ≤ (s.proposals p1).endTime)
    (ha4 : o1 < (s.proposals p1).optionCount) (hb1 : p2 < s.proposalCount)
    (hb2 : (s.proposals p2).startTime ≤ now)
    (hb3 : now ≤ (s.proposals p2).endTime)
    (hb4 : o2 < (s.proposals p2).optionCount) :
    resultOk (vote E now s p1 o1 vd) = resultOk (vote E now s p2 o2 vd) ∧
    ∀ e, vote E now s p1 o1 vd = .error e ↔
      vote E now s p2 o2 vd = .error e :=
  vote_target_independent E now s vd p1 o1 p2 o2 ha1 ha2 ha3 ha4 hb1 hb2
    hb3 hb4

/-- C7 (witness): the concrete proof accepted for option 0 is equally
accepted for option 1 of the same proposal. -/
theorem C7_witness :
    resultOk (vote cexEnv 0 cexS2 0 0 cexVd) =
      resultOk (vote cexEnv 0 cexS2 0 1 cexVd) :=
  (C7_proof_not_bound_to_target cexEnv 0 cexS2 cexVd 0 0 0 1 (by decide)
    (by decide) (by decide) (by decide) (by decide) (by decide)
    (by decide) (by decide)).1

/-- C8: `createProposal` succeeds exactly when the caller is a member,
the option list has 2..10 entries, the duration is at least
`MIN_VOTING_DURATION` and title and description are non-empty; on
success it stamps `startTime = now`, `endTime = now + duration`, assigns
the next id `proposalCount` (then increments the counter), stores the
options at indices `0..optionCount-1`, emits the creation record, and
touches nothing else; each violated precondition aborts with its own
named error (the call reverting, the store is left unchanged). -/
theorem C8_createProposal_spec (now : Nat) (s : DAOSt) (sender : Nat)
    (title description : String) (options : List String)
    (duration : Nat) :
    (resultOk (createProposal now s sender title description options
        duration) = true ↔
      (s.members sender = true ∧ 2 ≤ options.length ∧
        options.length ≤ 10 ∧ MIN_VOTING_DURATION ≤ duration ∧
        0 < title.length ∧ 0 < description.length)) ∧
    (∀ r, createProposal now s sender title description options duration =
        .ok r →
      r.2 = ⟨s.proposalCount, title, description, options, now,
        now + duration, sender⟩ ∧
      r.1.proposalCount = s.proposalCount + 1 ∧
      r.1.proposals = (fun q => if q = s.proposalCount then
          { id := s.proposalCount, title := title,
            description := description, startTime := now,
            endTime := now + duration, executed := false,
            proposer := sender, totalVotes := 0,
            optionCount := options.length }
        else s.proposals q) ∧
      r.1.proposalOptions = (fun q i =>
        if q = s.proposalCount ∧ i < options.length then options.getD i ""
        else s.proposalOptions q i) ∧
      r.1.members = s.members ∧ r.1.memberCommitments = s.memberCommitments ∧
      r.1.leaves = s.leaves ∧ r.1.membershipRoots = s.membershipRoots ∧
      r.1.currentRootIndex = s.currentRootIndex ∧
      r.1.nullifierHashes = s.nullifierHashes ∧
      r.1.proposalVotes = s.proposalVotes) ∧
    (s.members sender = false →
      createProposal now s sender title description options duration =
        .error .NotMember) ∧
    (s.members sender = true → options.length < 2 →
      createProposal now s sender title description options duration =
        .error .NeedTwoOptions) ∧
    (s.members sender = true → 2 ≤ options.length → 10 < options.length →
      createProposal now s sender title description options duration =
        .error .TooManyOptions) ∧
    (s.members sender = true → 2 ≤ options.length → options.length ≤ 10 →
      duration < MIN_VOTING_DURATION →
      createProposal now s sender title description options duration =
        .error .DurationTooShort) ∧
    (s.members sender = true → 2 ≤ options.length → options.length ≤ 10 →
      MIN_VOTING_DURATION ≤ duration → title.length = 0 →
      createProposal now s sender title description options duration =
        .error .EmptyTitle) ∧
    (s.members sender = true → 2 ≤ options.length → options.length ≤ 10 →
      MIN_VOTING_DURATION ≤ duration → 0 < title.length →
      description.length = 0 →
      createProposal now s sender title description options duration =
        .error .EmptyDescription) := by
  obtain ⟨e1, e2, e3, e4, e5, e6⟩ :=
    createProposal_error_cases now s sender title description options
      duration
  exact ⟨createProposal_isOk_iff now s sender title description options
      duration,
    fun r h => createProposal_ok_spec now s sender title description
      options duration r h,
    e1, e2, e3, e4, e5, e6⟩

/-- C9 (counterexample): in a reachable state, a `vote` call citing the
out-of-buffer history index 64 but an out-of-range option index fails
with the invalid-option error, not with the unknown-root error — so
"fails with the unknown-root error" does not hold for every such call. -/
theorem C9_counterexample :
    Reachable cexEnv cexS2 ∧
    cexVdIdx64.config.merkleRootIndex = 64 ∧
    vote cexEnv 0 cexS2 0 5 cexVdIdx64 = .error .InvalidOption ∧
    vote cexEnv 0 cexS2 0 5 cexVdIdx64 ≠ .error .UnknownRoot := by
  refine ⟨cexS2_reachable, rfl, rfl, ?_⟩
  intro hc
  have h3 : vote cexEnv 0 cexS2 0 5 cexVdIdx64 = .error .InvalidOption := rfl
  rw [h3] at hc
  simp at hc

/-- C9 (amended): in every reachable state the root-history map is zero
at every index at or beyond `ROOT_HISTORY_SIZE = 64` (insertions write
only at `(currentRootIndex + 1) % 64`), so a `vote` call citing such an
index never succeeds, and it fails with exactly the unknown-root error
whenever the earlier admission checks (proposal exists, window, option
index, nullifier unused, scope) pass. -/
theorem C9_root_index_bound (E : Env) (s : DAOSt) (h : Reachable E s) :
    (∀ j, ROOT_HISTORY_SIZE ≤ j → s.membershipRoots j = 0) ∧
    (∀ now p o vd, ROOT_HISTORY_SIZE ≤ vd.config.merkleRootIndex →
      resultOk (vote E now s p o vd) = false ∧
      (p < s.proposalCount → (s.proposals p).startTime ≤ now →
        now ≤ (s.proposals p).endTime → o < (s.proposals p).optionCount →
        s.nullifierHashes vd.proof.nullifier = false →
        vd.proof.scope = E.scope →
        vote E now s p o vd = .error .UnknownRoot)) := by
  obtain ⟨-, hhi, -⟩ := reachable_inv E s h
  refine ⟨hhi, fun now p o vd hidx => ?_⟩
  have hz : s.membershipRoots vd.config.merkleRootIndex = 0 :=
    hhi vd.config.merkleRootIndex hidx
  constructor
  · rw [← Bool.not_eq_true, vote_isOk_iff]
    intro hc
    exact hc.2.2.2.2.2.2.2.1 hz
  · intro a1 a2 a3 a4 a5 a6
    exact vote_unknown_root_error E now s p o vd a1 a2 a3 a4 a5 a6
      (fun hcon => hcon.2 hz)

/-- C9 (witness): in the concrete reachable state, slot 64 is zero and
the vote citing index 64 fails with the unknown-root error. -/
theorem C9_witness :
    cexS2.membershipRoots 64 = 0 ∧
    vote cexEnv 0 cexS2 0 0 cexVdIdx64 = .error .UnknownRoot := by
  have t := C9_root_index_bound cexEnv cexS2 cexS2_reachable
  exact ⟨t.1 64 (by decide),
    (t.2 0 0 0 cexVdIdx64 (by decide)).2 (by decide) (by decide)
      (by decide) (by decide) (by decide) (by decide)⟩

/-- C10 (counterexample): in a reachable state with one member, a `vote`
citing history index 0 but an out-of-range option index fails with the
invalid-option error, not with the unknown-root error — so "fails with
the unknown-root error" does not hold for every such call. -/
theorem C10_counterexample :
    Reachable cexEnv cexS2 ∧
    cexS2.leaves.length < 64 ∧
    cexVdIdx0.config.merkleRootIndex = 0 ∧
    vote cexEnv 0 cexS2 0 5 cexVdIdx0 = .error .InvalidOption ∧
    vote cexEnv 0 cexS2 0 5 cexVdIdx0 ≠ .error .UnknownRoot := by
  refine ⟨cexS2_reachable, by decide, rfl, rfl, ?_⟩
  intro hc
  have h3 : vote cexEnv 0 cexS2 0 5 cexVdIdx0 = .error .InvalidOption := rfl
  rw [h3] at hc
  simp at hc

/-- C10 (amended): the first successful insertion writes its root at
history index 1, not 0 (the write index starts at 0 and each insertion
writes at the next slot), slot 0 holds zero in every reachable state
with fewer than 64 members, and there a `vote` citing history index 0
never succeeds, failing with exactly the unknown-root error whenever the
earlier admission checks pass. -/
theorem C10_first_root_at_index_one :
    (∀ (E : Env) (c : Nat) (r : DAOSt × Nat),
      insertMember E initState c = .ok r →
      r.1.membershipRoots 1 = r.2 ∧ r.1.currentRootIndex = 1 ∧
      r.1.membershipRoots 0 = 0) ∧
    (∀ (E : Env) (s : DAOSt), Reachable E s → s.leaves.length < 64 →
      s.membershipRoots 0 = 0 ∧
      (∀ now p o vd, vd.config.merkleRootIndex = 0 →
        resultOk (vote E now s p o vd) = false ∧
        (p < s.proposalCount → (s.proposals p).startTime ≤ now →
          now ≤ (s.proposals p).endTime →
          o < (s.proposals p).optionCount →
          s.nullifierHashes vd.proof.nullifier = false →
          vd.proof.scope = E.scope →
          vote E now s p o vd = .error .UnknownRoot))) := by
  constructor
  · intro E c r h
    have hspec := insertMember_ok_spec E initState c r h
    have hroots := hspec.2.2.2.2.2.2.1
    have h1 := congrFun hroots 1
    have h0 := congrFun hroots 0
    simp only at h1 h0
    rw [if_pos (by decide)] at h1
    rw [if_neg (by decide)] at h0
    refine ⟨?_, ?_, h0⟩
    · rw [h1, hspec.2.2.2.1]
    · rw [hspec.2.2.2.2.2.1]
      decide
  · intro E s h hlen
    obtain ⟨-, -, hz0⟩ := reachable_inv E s h
    have hz : s.membershipRoots 0 = 0 := hz0 hlen
    refine ⟨hz, fun now p o vd hidx => ?_⟩
    have hzv : s.membershipRoots vd.config.merkleRootIndex = 0 := by
      rw [hidx]
      exact hz
    constructor
    · rw [← Bool.not_eq_true, vote_isOk_iff]
      intro hc
      exact hc.2.2.2.2.2.2.2.1 hzv
    · intro a1 a2 a3 a4 a5 a6
      exact vote_unknown_root_error E now s p o vd a1 a2 a3 a4 a5 a6
        (fun hcon => hcon.2 hzv)

end ShinobiVote
